import Mathlib

/-
Verification of the geometric core of `dxf_app.py` (a DXF hatch-line web
tool).  The Python source is shallowly embedded over `ℚ` (the source works
with Python floats; all the arithmetic it performs is field arithmetic, and
the trigonometric rotation factors are passed symbolically as a
cosine/sine pair).  Shapely library calls (`rotate`, `bounds`,
`intersection`, `buffer`, `unary_union`) are external to the repository;
they are modelled by their documented set-theoretic semantics: a region is
represented by the observable interface the source uses (point membership,
bounding box, and the list of chords cut out of a horizontal line).
-/

namespace DxfApp

/-- Fuel-indexed unfolding of the `while` loop in `float_range`
(`dxf_app.py`, lines 18-23):

    x = start
    while x <= stop + 1e-9:
        yield x
        x += step

Each fuel step performs one loop iteration. -/
def float_range_aux (fuel : ℕ) (start stop step : ℚ) : List ℚ :=
  match fuel with
  | 0 => []
  | fuel + 1 =>
    if start ≤ stop + 1 / 1000000000 then
      start :: float_range_aux fuel (start + step) stop step
    else []

/-- `float_range(start, stop, step)` from `dxf_app.py` lines 18-23: the
inclusive float range with tolerance `1e-9`.  The fuel
`(⌊(stop + 1e-9 - start) / step⌋ + 1).toNat` is exactly the number of
iterations the Python loop performs when `step > 0` (proved below in
`float_range_eq`); for `step ≤ 0` the Python generator would never
terminate, and `make_hatch_lines` only ever calls it with `step > 0`. -/
def float_range (start stop step : ℚ) : List ℚ :=
  float_range_aux (⌊(stop + 1 / 1000000000 - start) / step⌋ + 1).toNat start stop step

/-- Observable interface of a Shapely geometry as used by
`make_hatch_lines` once the region has been rotated: point membership
(`covers`, i.e. the closed region), the bounding box `bounds =
(minx, miny, maxx, maxy)`, and for each probe ordinate `y` the straight
chords returned by `rot_region.intersection(base_line)` — one pair
`(first x, last x)` per `LineString` part, mirroring the source's use of
`coords[0]` / `coords[-1]`.  Non-linear intersection parts (points,
grazing contacts) are not chords, exactly as the source skips them. -/
structure SRegion where
  mem : ℚ × ℚ → Bool
  minx : ℚ
  miny : ℚ
  maxx : ℚ
  maxy : ℚ
  chordsAt : ℚ → List (ℚ × ℚ)

/-- Soundness of the chord oracle: every point of a returned chord lies in
the region.  This is the defining property of Shapely's
`intersection`: each `LineString` part of `region ∩ line` is a subset of
the region (stated for both endpoint orders, since `coords[0]` need not be
the leftmost point). -/
def SRegion.chordsOk (R : SRegion) : Prop :=
  ∀ y a b, (a, b) ∈ R.chordsAt y →
    ∀ x : ℚ, min a b ≤ x → x ≤ max a b → R.mem (x, y) = true

/-- `affinity.rotate(seg, angle_deg, origin=(0, 0))` applied to a point:
rotation about the origin with `c = cos angle`, `s = sin angle` passed
symbolically. -/
def rotBack (c s : ℚ) (p : ℚ × ℚ) : ℚ × ℚ :=
  (c * p.1 - s * p.2, s * p.1 + c * p.2)

/-- One output tuple `(x1, y1, x2, y2)` of `make_hatch_lines`: the chord
`(a, y)-(b, y)` rotated back by `+angle` (lines 136-152 of
`dxf_app.py`). -/
def segOf (c s y : ℚ) (ab : ℚ × ℚ) : ℚ × ℚ × ℚ × ℚ :=
  ((rotBack c s (ab.1, y)).1, (rotBack c s (ab.1, y)).2,
   (rotBack c s (ab.2, y)).1, (rotBack c s (ab.2, y)).2)

/-- `make_hatch_lines(region, spacing, angle_deg)` from `dxf_app.py`
lines 103-156.  `rot_region` stands for
`affinity.rotate(region, -angle_deg, origin=(0, 0))` (a Shapely call on
the library side, exposed through the `SRegion` interface), and `(c, s)`
for `(cos angle, sin angle)` used when rotating each segment back by
`+angle_deg`.  The `base_line` of the source spans the extended bounding
box `[minx - margin, maxx + margin]`, which contains the whole region, so
intersecting with it is intersecting with the full horizontal line —
which is what `chordsAt` returns.  The `ValueError` guard on
`spacing <= 0` is the first statement of the function. -/
def make_hatch_lines (rot_region : SRegion) (spacing c s : ℚ) :
    Except String (List (ℚ × ℚ × ℚ × ℚ)) :=
  if spacing ≤ 0 then
    Except.error ("La distanza tra le linee deve essere > 0.")
  else
    let margin := spacing * 2
    let ys := float_range (rot_region.miny - margin) (rot_region.maxy + margin) spacing
    Except.ok (ys.flatMap fun y => (rot_region.chordsAt y).map fun ab => segOf c s y ab)

/-- Number of probe ordinates `make_hatch_lines` visits: the closed-form
iteration count of `float_range` over the margin-extended bounding box. -/
def probeCount (miny maxy spacing : ℚ) : ℕ :=
  (⌊(maxy + spacing * 2 + 1 / 1000000000 - (miny - spacing * 2)) / spacing⌋ + 1).toNat

/-- The probe ordinates themselves: `miny - margin + k * spacing`. -/
def probes (miny maxy spacing : ℚ) : List ℚ :=
  (List.range (probeCount miny maxy spacing)).map
    fun k : ℕ => miny - spacing * 2 + (k : ℚ) * spacing

/-- An axis-aligned rectangle `[x0, x1] × [y0, y1]` presented through the
`SRegion` interface: membership is the box test, the bounds are the box
itself, and a horizontal line at ordinate `y` meets it in the single
chord `(x0, x1)` exactly when `y0 ≤ y ≤ y1`.  (Concrete test region used
to instantiate the generic theorems.) -/
def rectRegion (x0 x1 y0 y1 : ℚ) : SRegion where
  mem p := decide (x0 ≤ p.1) && decide (p.1 ≤ x1) && decide (y0 ≤ p.2) && decide (p.2 ≤ y1)
  minx := x0
  miny := y0
  maxx := x1
  maxy := y1
  chordsAt y := if y0 ≤ y ∧ y ≤ y1 then [(x0, x1)] else []

lemma float_range_aux_eq (stop step : ℚ) (hstep : 0 < step) :
    ∀ fuel start, (⌊(stop + 1 / 1000000000 - start) / step⌋ + 1).toNat ≤ fuel →
      float_range_aux fuel start stop step =
        (List.range (⌊(stop + 1 / 1000000000 - start) / step⌋ + 1).toNat).map
          fun k : ℕ => start + (k : ℚ) * step := by
  intro fuel
  induction fuel with
  | zero =>
    intro start hle
    have h0 : (⌊(stop + 1 / 1000000000 - start) / step⌋ + 1).toNat = 0 := Nat.le_zero.mp hle
    rw [h0]
    simp [float_range_aux]
  | succ n ih =>
    intro start hle
    set X : ℚ := stop + 1 / 1000000000 with hX
    by_cases hguard : start ≤ X
    · have ht : 0 ≤ (X - start) / step := div_nonneg (by linarith) (le_of_lt hstep)
      have hfl : 0 ≤ ⌊(X - start) / step⌋ := Int.le_floor.mpr (by exact_mod_cast ht)
      have hne : step ≠ 0 := ne_of_gt hstep
      have hstep' : (X - (start + step)) / step = (X - start) / step - 1 := by
        field_simp
        ring
      have hfl' : ⌊(X - (start + step)) / step⌋ = ⌊(X - start) / step⌋ - 1 := by
        rw [hstep']
        exact Int.floor_sub_one _
      have hn : (⌊(X - start) / step⌋ + 1).toNat =
          (⌊(X - (start + step)) / step⌋ + 1).toNat + 1 := by
        rw [hfl']
        omega
      have hrec := ih (start + step) (by omega)
      rw [float_range_aux, if_pos hguard, hrec, hn, List.range_succ_eq_map,
        List.map_cons, List.map_map]
      refine List.cons_eq_cons.mpr ⟨by push_cast; ring, ?_⟩
      apply List.map_congr_left
      intro k _
      simp only [Function.comp_apply]
      push_cast
      ring
    · have ht : (X - start) / step < 0 := by
        apply div_neg_of_neg_of_pos _ hstep
        linarith [lt_of_not_le hguard]
      have hfl : ⌊(X - start) / step⌋ < 0 := Int.floor_lt.mpr (by exact_mod_cast ht)
      have h0 : (⌊(X - start) / step⌋ + 1).toNat = 0 := by omega
      rw [float_range_aux, if_neg hguard, h0]
      simp

/-- Closed form of `float_range` for a positive step: the arithmetic grid
from `start` in increments of `step`, truncated at the last value that is
`≤ stop + 1e-9`. -/
lemma float_range_eq (start stop step : ℚ) (hstep : 0 < step) (N : ℕ)
    (hN : (⌊(stop + 1 / 1000000000 - start) / step⌋ + 1).toNat = N) :
    float_range start stop step = (List.range N).map fun k : ℕ => start + (k : ℚ) * step := by
  rw [float_range, float_range_aux_eq stop step hstep _ start (le_of_eq rfl), hN]

/-- A modelspace entity as dispatched on by `e.dxftype()` in
`extract_loop_region_from_dxf` / `extract_boundary_geometries_from_dxf`
(`dxf_app.py` lines 54-89 and 217-258).  `circle` carries the 2-D centre
(the source drops the z coordinate of `e.dxf.center`) and radius;
`lwpolyline` its `closed` flag and `get_points()` vertices; `polyline`
its optional `flags` word (absent when the attribute raises
`AttributeError`) and vertex locations.  `arc`, `spline` and `other`
cover the remaining entity types, for which neither function has a
branch. -/
inductive DxfEntity where
  | circle (cx cy r : ℚ)
  | lwpolyline (closed : Bool) (points : List (ℚ × ℚ))
  | polyline (flags : Option ℕ) (points : List (ℚ × ℚ))
  | arc (cx cy r startAngle endAngle : ℚ)
  | spline (closed : Bool) (controlPoints : List (ℚ × ℚ))
  | other (dxftype : String)
  deriving DecidableEq

/-- One Shapely polygon collected into the `polys` list of
`extract_loop_region_from_dxf`: `disk` is `Point(cx, cy).buffer(r,
resolution=128)` and `polygon` is `Polygon(points)`. -/
inductive LoopPoly where
  | disk (cx cy r : ℚ)
  | polygon (points : List (ℚ × ℚ))
  deriving DecidableEq

/-- Ray-casting test for one polygon edge `a-b`: does the horizontal ray
from `p` to `+∞` on the x axis cross it?  (Even-odd point-in-polygon
rule; the first conjunct guarantees `a.2 ≠ b.2`, so the division is
well-defined.) -/
def edgeCrosses (p a b : ℚ × ℚ) : Bool :=
  (decide (a.2 ≤ p.2) != decide (b.2 ≤ p.2)) &&
    decide (p.1 < a.1 + (p.2 - a.2) * (b.1 - a.1) / (b.2 - a.2))

/-- Point membership in one collected polygon, modelling Shapely's closed
point-in-geometry test: a `disk` contains the points within its radius
(`buffer` returns an inscribed 512-gon; every point the theorems below
query is well inside both the exact disk and that polygon), and a
`polygon` contains a point when the even-odd crossing number of its
boundary is odd. -/
def LoopPoly.containsPoint : LoopPoly → ℚ × ℚ → Bool
  | .disk cx cy r, p => decide ((p.1 - cx) ^ 2 + (p.2 - cy) ^ 2 ≤ r ^ 2)
  | .polygon pts, p =>
    let edges := pts.zip (pts.drop 1 ++ pts.take 1)
    (edges.filter fun e => edgeCrosses p e.1 e.2).length % 2 == 1

/-- The closedness test both extractors run on a POLYLINE entity
(`dxf_app.py` lines 77-80 and 244-247): bit 1 of `e.dxf.flags`, with the
`AttributeError` fallback to "not closed" when the attribute is
absent. -/
def polylineClosed (flags : Option ℕ) : Bool :=
  match flags with
  | some f => f &&& 1 == 1
  | none => false

/-- The per-entity body of the `for e in msp` loop of
`extract_loop_region_from_dxf` (`dxf_app.py` lines 54-89): `none` when the
entity is skipped by a `continue` (or has no branch at all), `some` the
Shapely polygon appended to `polys` otherwise.  `isValidPoly pts` is the
oracle for Shapely's `Polygon(pts).is_valid and not Polygon(pts).is_empty`
check, a library predicate the source consults but does not define. -/
def entityToPoly (isValidPoly : List (ℚ × ℚ) → Bool) : DxfEntity → Option LoopPoly
  | .circle cx cy r =>
    if r ≤ 0 then none
    else some (.disk cx cy r)
  | .lwpolyline closed points =>
    if !closed then none
    else if points.length < 3 then none
    else if !isValidPoly points then none
    else some (.polygon points)
  | .polyline flags points =>
    if !polylineClosed flags then none
    else if points.length < 3 then none
    else if !isValidPoly points then none
    else some (.polygon points)
  | _ => none

/-- `extract_loop_region_from_dxf(doc)` (`dxf_app.py` lines 42-100): scan
the modelspace entities into `polys`, raise when none qualified, then
return `unary_union(polys)`.  The union is represented by the list of its
constituents (membership in a finite union is membership in some
constituent, see `regionMem`); since every collected polygon is nonempty
(`r > 0` disks, and polygons that passed the `is_empty` check), the
union of a nonempty `polys` list is nonempty and the source's second
`raise` (`region.is_empty`) is unreachable. -/
def extract_loop_region_from_dxf (isValidPoly : List (ℚ × ℚ) → Bool)
    (entities : List DxfEntity) : Except String (List LoopPoly) :=
  let polys := entities.filterMap (entityToPoly isValidPoly)
  if polys.isEmpty then
    Except.error ("Nel DXF non ho trovato loop chiusi (CIRCLE o (LW)POLYLINE chiuse).")
  else
    Except.ok polys

/-- Membership in `unary_union(polys)`: a point is in the union exactly
when it is in one of the constituent polygons. -/
def regionMem (polys : List LoopPoly) (p : ℚ × ℚ) : Bool :=
  polys.any fun poly => poly.containsPoint p

/-- One element of the `boundary_geometries` list consumed by
`create_dxf_r12_with_lines`: the source builds dicts
`{"type": "circle", "center": ..., "radius": ...}` and
`{"type": "polyline", "points": ...}` and nothing else. -/
inductive BoundaryGeom where
  | circle (center : ℚ × ℚ) (radius : ℚ)
  | polyline (points : List (ℚ × ℚ))
  deriving DecidableEq

/-- An entity added to the R12 modelspace by
`create_dxf_r12_with_lines`: `msp.add_circle`, `msp.add_lwpolyline`
(with its `close=True` keyword recorded in the `closed` field), or
`msp.add_line`. -/
inductive R12Entity where
  | circle (center : ℚ × ℚ) (radius : ℚ)
  | lwpolyline (points : List (ℚ × ℚ)) (closed : Bool)
  | line (p1 p2 : ℚ × ℚ)
  deriving DecidableEq

/-- The boundary-drawing branch of `create_dxf_r12_with_lines`
(`dxf_app.py` lines 192-197): a circle dict becomes `add_circle`, a
polyline dict becomes `add_lwpolyline(..., close=True)`. -/
def boundaryEntity : BoundaryGeom → R12Entity
  | .circle center radius => .circle center radius
  | .polyline points => .lwpolyline points true

/-- `create_dxf_r12_with_lines(region, segments, boundary_geometries)`
(`dxf_app.py` lines 174-206), abstracted to the ordered list of entities
added to the fresh R12 modelspace.  The `region` parameter is accepted
(any value, as in Python) and — exactly as in the source — never read.
`boundary_geometries` defaults to `None`; the `if boundary_geometries:`
truthiness guard skips both `None` and the empty list, and iterating an
empty list adds nothing either way. -/
def create_dxf_r12_with_lines {α : Type} (region : α)
    (segments : List (ℚ × ℚ × ℚ × ℚ))
    (boundary_geometries : Option (List BoundaryGeom)) : List R12Entity :=
  (match boundary_geometries with
    | none => []
    | some gs => gs.map boundaryEntity) ++
    segments.map fun q => R12Entity.line (q.1, q.2.1) (q.2.2.1, q.2.2.2)

/-- The per-entity body of the `for e in msp` loop of
`extract_boundary_geometries_from_dxf` (`dxf_app.py` lines 217-258):
identical dispatch to `entityToPoly` except that no Shapely validity
check is performed on polyline points. -/
def entityToBoundary : DxfEntity → Option BoundaryGeom
  | .circle cx cy r =>
    if r ≤ 0 then none
    else some (.circle (cx, cy) r)
  | .lwpolyline closed points =>
    if !closed then none
    else if points.length < 3 then none
    else some (.polyline points)
  | .polyline flags points =>
    if !polylineClosed flags then none
    else if points.length < 3 then none
    else some (.polyline points)
  | _ => none

/-- `extract_boundary_geometries_from_dxf(doc)` (`dxf_app.py` lines
209-260): the list of boundary dicts collected from the modelspace, in
entity order. -/
def extract_boundary_geometries_from_dxf (entities : List DxfEntity) : List BoundaryGeom :=
  entities.filterMap entityToBoundary

/-- Claim C1 (code divergence evidence).  For a modelspace holding exactly
two concentric circles of radius 5 and 10 centred at the origin,
`extract_loop_region_from_dxf` collects both disks and returns their
`unary_union`.  Because a union never subtracts area, the point `(3, 0)`
at distance 3 from the origin — which the claim (and the function's own
docstring about nested loops becoming holes) says is *not* filled — lies
inside the resulting region, as does the point `(7, 0)`. -/
theorem extract_concentric_circles_fills_inner_disk :
    extract_loop_region_from_dxf (fun _ => true)
      [DxfEntity.circle 0 0 5, DxfEntity.circle 0 0 10] =
      Except.ok [LoopPoly.disk 0 0 5, LoopPoly.disk 0 0 10] ∧
    regionMem [LoopPoly.disk 0 0 5, LoopPoly.disk 0 0 10] (3, 0) = true ∧
    regionMem [LoopPoly.disk 0 0 5, LoopPoly.disk 0 0 10] (7, 0) = true := by
  refine ⟨rfl, ?_, ?_⟩ <;>
    · simp only [regionMem, List.any_cons, List.any_nil, LoopPoly.containsPoint,
        Bool.or_eq_true, decide_eq_true_eq]
      norm_num

/-- Claim C3.  `make_hatch_lines` rejects a non-positive spacing with the
`ValueError` raised on its first two lines, and the rejected call is
independent of the region and of the angle: no bounding box, probe, or
rotation data is ever consulted. -/
theorem make_hatch_lines_invalid_spacing (R R2 : SRegion) (spacing c s c2 s2 : ℚ)
    (h : spacing ≤ 0) :
    make_hatch_lines R spacing c s =
      Except.error ("La distanza tra le linee deve essere > 0.") ∧
    make_hatch_lines R spacing c s = make_hatch_lines R2 spacing c2 s2 := by
  constructor <;> simp [make_hatch_lines, h]

theorem make_hatch_lines_invalid_spacing_witness :
    make_hatch_lines (rectRegion 0 1 0 1) 0 1 0 =
      Except.error ("La distanza tra le linee deve essere > 0.") ∧
    make_hatch_lines (rectRegion 0 1 0 1) 0 1 0 = make_hatch_lines (rectRegion 2 5 2 5) 0 0 1 :=
  make_hatch_lines_invalid_spacing (rectRegion 0 1 0 1) (rectRegion 2 5 2 5)
    0 1 0 0 1 (by norm_num)

/-- Claim C4.  When no usable closed loop is collected from the
modelspace, `extract_loop_region_from_dxf` raises the "no closed loops
found" `RuntimeError`; and a successful return is never the empty
region list. -/
theorem extract_empty_loop_set_fails (isValidPoly : List (ℚ × ℚ) → Bool)
    (entities : List DxfEntity) :
    (entities.filterMap (entityToPoly isValidPoly) = [] →
      extract_loop_region_from_dxf isValidPoly entities =
        Except.error ("Nel DXF non ho trovato loop chiusi (CIRCLE o (LW)POLYLINE chiuse).")) ∧
    ∀ polys, extract_loop_region_from_dxf isValidPoly entities = Except.ok polys →
      polys ≠ [] := by
  constructor
  · intro h
    simp [extract_loop_region_from_dxf, h]
  · intro polys hok
    simp only [extract_loop_region_from_dxf] at hok
    split at hok
    · exact absurd hok (by simp)
    · rename_i hne
      cases hok
      exact fun hnil => hne (by simp [hnil])

theorem extract_empty_loop_set_fails_witness :
    extract_loop_region_from_dxf (fun _ => true) [DxfEntity.other ("LINE")] =
      Except.error ("Nel DXF non ho trovato loop chiusi (CIRCLE o (LW)POLYLINE chiuse).") :=
  (extract_empty_loop_set_fails (fun _ => true) [DxfEntity.other ("LINE")]).1 rfl

/-- Claim C7 counterexample.  A modelspace containing a closed SPLINE and
a full-circle ARC — entity kinds the claim says are flattened into loops
— produces no loop at all: `extract_loop_region_from_dxf` has no branch
for `dxftype()` values `"SPLINE"` or `"ARC"`, so both entities are
ignored and the function raises the "no closed loops found" error. -/
theorem spline_and_arc_are_ignored :
    extract_loop_region_from_dxf (fun _ => true)
      [DxfEntity.spline true [(0, 0), (4, 0), (4, 4), (0, 4)],
       DxfEntity.arc 0 0 5 0 360] =
      Except.error ("Nel DXF non ho trovato loop chiusi (CIRCLE o (LW)POLYLINE chiuse).") := rfl

/-- Claim C7 as amended.  The loop-extraction stage of
`extract_loop_region_from_dxf` supports exactly three entity kinds —
CIRCLE, closed LWPOLYLINE and closed POLYLINE, each contributing a
polygon to the fill region — while ARC, SPLINE and every other entity
type have no branch and are ignored. -/
theorem extract_supported_entity_kinds (isValidPoly : List (ℚ × ℚ) → Bool) :
    (∀ cx cy r a0 a1, entityToPoly isValidPoly (.arc cx cy r a0 a1) = none) ∧
    (∀ closed ctrl, entityToPoly isValidPoly (.spline closed ctrl) = none) ∧
    (∀ t, entityToPoly isValidPoly (.other t) = none) ∧
    (∀ cx cy r, ¬r ≤ 0 → entityToPoly isValidPoly (.circle cx cy r) = some (.disk cx cy r)) ∧
    (∀ pts, ¬pts.length < 3 → isValidPoly pts = true →
      entityToPoly isValidPoly (.lwpolyline true pts) = some (.polygon pts)) ∧
    (∀ flags pts, polylineClosed flags = true → ¬pts.length < 3 → isValidPoly pts = true →
      entityToPoly isValidPoly (.polyline flags pts) = some (.polygon pts)) := by
  refine ⟨fun _ _ _ _ _ => rfl, fun _ _ => rfl, fun _ => rfl, ?_, ?_, ?_⟩
  · intro cx cy r hr
    simp [entityToPoly, hr]
  · intro pts hlen hvalid
    simp [entityToPoly, hlen, hvalid]
  · intro flags pts hflag hlen hvalid
    simp [entityToPoly, hflag, hlen, hvalid]

theorem extract_supported_entity_kinds_witness :
    entityToPoly (fun _ => true) (.arc 0 0 5 0 360) = none ∧
    entityToPoly (fun _ => true) (.spline true [(0, 0), (1, 0), (0, 1)]) = none ∧
    entityToPoly (fun _ => true) (.other ("TEXT")) = none ∧
    entityToPoly (fun _ => true) (.circle 0 0 5) = some (.disk 0 0 5) ∧
    entityToPoly (fun _ => true) (.lwpolyline true [(0, 0), (1, 0), (0, 1)]) =
      some (.polygon [(0, 0), (1, 0), (0, 1)]) ∧
    entityToPoly (fun _ => true) (.polyline (some 1) [(0, 0), (1, 0), (0, 1)]) =
      some (.polygon [(0, 0), (1, 0), (0, 1)]) :=
  ⟨(extract_supported_entity_kinds (fun _ => true)).1 0 0 5 0 360,
   (extract_supported_entity_kinds (fun _ => true)).2.1 true [(0, 0), (1, 0), (0, 1)],
   (extract_supported_entity_kinds (fun _ => true)).2.2.1 ("TEXT"),
   (extract_supported_entity_kinds (fun _ => true)).2.2.2.1 0 0 5 (by norm_num),
   (extract_supported_entity_kinds (fun _ => true)).2.2.2.2.1 [(0, 0), (1, 0), (0, 1)]
     (by simp) rfl,
   (extract_supported_entity_kinds (fun _ => true)).2.2.2.2.2 (some 1) [(0, 0), (1, 0), (0, 1)]
     rfl (by simp) rfl⟩

/-- Claim C8.  A degenerate or unsupported entity — a circle of
non-positive radius, a closed polyline with fewer than 3 points, or a
polyline whose points fail Shapely's validity check — is skipped by a
`continue` and contributes nothing: the region extracted from any
modelspace containing such an entity is the region extracted with the
entity removed, so one bad entity never aborts the batch. -/
theorem degenerate_entity_skipped (isValidPoly : List (ℚ × ℚ) → Bool)
    (e : DxfEntity) (pre post : List DxfEntity)
    (h : entityToPoly isValidPoly e = none) :
    extract_loop_region_from_dxf isValidPoly (pre ++ e :: post) =
      extract_loop_region_from_dxf isValidPoly (pre ++ post) ∧
    (∀ cx cy r, r ≤ 0 → entityToPoly isValidPoly (.circle cx cy r) = none) ∧
    (∀ closed pts, pts.length < 3 → entityToPoly isValidPoly (.lwpolyline closed pts) = none) ∧
    (∀ closed pts, isValidPoly pts = false →
      entityToPoly isValidPoly (.lwpolyline closed pts) = none) := by
  refine ⟨?_, ?_, ?_, ?_⟩
  · unfold extract_loop_region_from_dxf
    rw [List.filterMap_append, List.filterMap_append, List.filterMap_cons, h]
  · intro cx cy r hr
    simp [entityToPoly, hr]
  · intro closed pts hlen
    cases closed <;> simp [entityToPoly, hlen]
  · intro closed pts hvalid
    cases closed <;> by_cases hlen : pts.length < 3 <;> simp [entityToPoly, hlen, hvalid]

theorem degenerate_entity_skipped_witness :
    extract_loop_region_from_dxf (fun _ => false)
      [DxfEntity.circle 0 0 0, DxfEntity.circle 0 0 1] =
      extract_loop_region_from_dxf (fun _ => false) [DxfEntity.circle 0 0 1] ∧
    entityToPoly (fun _ => false) (.circle 0 0 0) = none ∧
    entityToPoly (fun _ => false) (.lwpolyline true [(0, 0), (1, 1)]) = none ∧
    entityToPoly (fun _ => false) (.lwpolyline true [(0, 0), (1, 0), (0, 1)]) = none :=
  ⟨(degenerate_entity_skipped (fun _ => false) (DxfEntity.circle 0 0 0)
      [] [DxfEntity.circle 0 0 1] (by norm_num [entityToPoly])).1,
   (degenerate_entity_skipped (fun _ => false) (DxfEntity.circle 0 0 0)
      [] [DxfEntity.circle 0 0 1] (by norm_num [entityToPoly])).2.1 0 0 0 le_rfl,
   (degenerate_entity_skipped (fun _ => false) (DxfEntity.circle 0 0 0)
      [] [DxfEntity.circle 0 0 1] (by norm_num [entityToPoly])).2.2.1 true
      [(0, 0), (1, 1)] (by simp),
   (degenerate_entity_skipped (fun _ => false) (DxfEntity.circle 0 0 0)
      [] [DxfEntity.circle 0 0 1] (by norm_num [entityToPoly])).2.2.2 true
      [(0, 0), (1, 0), (0, 1)] rfl⟩

/-- Claim C9.  `create_dxf_r12_with_lines` never reads its `region`
argument: any two region values (of any two types) with the same
segments and boundary geometries produce the same entity stream, and
that stream is one CIRCLE or closed LWPOLYLINE per boundary geometry in
list order followed by one LINE per segment in list order. -/
theorem create_dxf_independent_of_region {α β : Type} (r1 : α) (r2 : β)
    (segments : List (ℚ × ℚ × ℚ × ℚ)) (bgs : Option (List BoundaryGeom))
    (gs : List BoundaryGeom) :
    create_dxf_r12_with_lines r1 segments bgs = create_dxf_r12_with_lines r2 segments bgs ∧
    create_dxf_r12_with_lines r1 segments (some gs) =
      gs.map boundaryEntity ++
        segments.map (fun q => R12Entity.line (q.1, q.2.1) (q.2.2.1, q.2.2.2)) ∧
    create_dxf_r12_with_lines r1 segments none =
      segments.map fun q => R12Entity.line (q.1, q.2.1) (q.2.2.1, q.2.2.2) := by
  refine ⟨rfl, rfl, by simp [create_dxf_r12_with_lines]⟩

/-- Claim C10.  Every entity accepted into the fill region by
`extract_loop_region_from_dxf` is also emitted, with the same geometry
and in place, by `extract_boundary_geometries_from_dxf`: the boundary
extractor runs the same dispatch with strictly weaker checks (it skips
the Shapely validity test), so every loop that gets filled also gets its
perimeter redrawn. -/
theorem accepted_loop_is_redrawn (isValidPoly : List (ℚ × ℚ) → Bool)
    (e : DxfEntity) (p : LoopPoly) (h : entityToPoly isValidPoly e = some p) :
    ∃ g, entityToBoundary e = some g ∧
      (∀ pre post, extract_boundary_geometries_from_dxf (pre ++ e :: post) =
        extract_boundary_geometries_from_dxf pre ++
          g :: extract_boundary_geometries_from_dxf post) ∧
      (∀ cx cy r, e = .circle cx cy r → g = .circle (cx, cy) r) ∧
      (∀ closed pts, e = .lwpolyline closed pts → g = .polyline pts) ∧
      (∀ flags pts, e = .polyline flags pts → g = .polyline pts) := by
  have hb : ∀ g, entityToBoundary e = some g →
      (∀ pre post, extract_boundary_geometries_from_dxf (pre ++ e :: post) =
        extract_boundary_geometries_from_dxf pre ++
          g :: extract_boundary_geometries_from_dxf post) := by
    intro g hg pre post
    unfold extract_boundary_geometries_from_dxf
    rw [List.filterMap_append, List.filterMap_cons, hg]
  cases e with
  | circle cx cy r =>
    refine ⟨.circle (cx, cy) r, ?_, ?_, ?_, ?_, ?_⟩
    · by_cases hr : r ≤ 0
      · simp [entityToPoly, hr] at h
      · simp [entityToBoundary, hr]
    · apply hb
      by_cases hr : r ≤ 0
      · simp [entityToPoly, hr] at h
      · simp [entityToBoundary, hr]
    · intro cx' cy' r' he
      cases he
      rfl
    · intro closed pts he
      exact absurd he (by simp)
    · intro flags pts he
      exact absurd he (by simp)
  | lwpolyline closed pts =>
    have hcond : closed = true ∧ ¬pts.length < 3 := by
      cases closed <;> by_cases hlen : pts.length < 3 <;>
        simp_all [entityToPoly]
    refine ⟨.polyline pts, ?_, ?_, ?_, ?_, ?_⟩
    · simp [entityToBoundary, hcond.1, hcond.2]
    · apply hb
      simp [entityToBoundary, hcond.1, hcond.2]
    · intro cx' cy' r' he
      exact absurd he (by simp)
    · intro closed' pts' he
      cases he
      rfl
    · intro flags pts' he
      exact absurd he (by simp)
  | polyline flags pts =>
    have hcond : polylineClosed flags = true ∧ ¬pts.length < 3 := by
      by_cases hfl : polylineClosed flags = true <;>
        by_cases hlen : pts.length < 3 <;>
        simp_all [entityToPoly]
    refine ⟨.polyline pts, ?_, ?_, ?_, ?_, ?_⟩
    · simp [entityToBoundary, hcond.1, hcond.2]
    · apply hb
      simp [entityToBoundary, hcond.1, hcond.2]
    · intro cx' cy' r' he
      exact absurd he (by simp)
    · intro closed' pts' he
      exact absurd he (by simp)
    · intro flags' pts' he
      cases he
      rfl
  | arc cx cy r a0 a1 => exact absurd h (by simp [entityToPoly])
  | spline closed ctrl => exact absurd h (by simp [entityToPoly])
  | other t => exact absurd h (by simp [entityToPoly])

theorem accepted_loop_is_redrawn_witness :
    ∃ g, entityToBoundary (DxfEntity.circle 0 0 5) = some g ∧
      (∀ pre post, extract_boundary_geometries_from_dxf (pre ++ DxfEntity.circle 0 0 5 :: post) =
        extract_boundary_geometries_from_dxf pre ++
          g :: extract_boundary_geometries_from_dxf post) ∧
      (∀ cx cy r, DxfEntity.circle 0 0 5 = .circle cx cy r → g = .circle (cx, cy) r) ∧
      (∀ closed pts, DxfEntity.circle 0 0 5 = .lwpolyline closed pts → g = .polyline pts) ∧
      (∀ flags pts, DxfEntity.circle 0 0 5 = .polyline flags pts → g = .polyline pts) :=
  accepted_loop_is_redrawn (fun _ => true) (DxfEntity.circle 0 0 5)
    (LoopPoly.disk 0 0 5) (by norm_num [entityToPoly])

lemma rectRegion_chordsOk (x0 x1 y0 y1 : ℚ) (hx : x0 ≤ x1) :
    (rectRegion x0 x1 y0 y1).chordsOk := by
  intro y a b hab x hmin hmax
  simp only [rectRegion] at hab ⊢
  split at hab
  · rename_i hy
    simp only [List.mem_singleton, Prod.mk.injEq] at hab
    obtain ⟨ha, hb⟩ := hab
    subst ha
    subst hb
    rw [min_eq_left hx] at hmin
    rw [max_eq_right hx] at hmax
    simp only [Bool.and_eq_true, decide_eq_true_eq]
    exact ⟨⟨⟨hmin, hmax⟩, hy.1⟩, hy.2⟩
  · simp at hab

/-- Claim C2.  Every segment emitted by `make_hatch_lines` lies inside the
region: if the chord oracle is sound (`chordsOk`) and the rotated region
maps back into the original region `orig` under the `+angle` rotation
(this is what `rot_region = rotate(region, -angle)` means), then both
endpoints of every generated segment, and its midpoint — the sample
point of the region's point-membership test — satisfy `orig`.  A segment
therefore never crosses into a hole: holes are simply points outside
`orig`, and the chords the intersection returns avoid them. -/
theorem hatch_segments_lie_in_region (R : SRegion) (spacing c s : ℚ)
    (orig : ℚ × ℚ → Prop)
    (hok : R.chordsOk)
    (hrot : ∀ p, R.mem p = true → orig (rotBack c s p))
    (segs : List (ℚ × ℚ × ℚ × ℚ))
    (hmk : make_hatch_lines R spacing c s = Except.ok segs)
    (x1 y1 x2 y2 : ℚ) (hseg : (x1, y1, x2, y2) ∈ segs) :
    orig (x1, y1) ∧ orig (x2, y2) ∧ orig ((x1 + x2) / 2, (y1 + y2) / 2) := by
  by_cases hsp : spacing ≤ 0
  · simp [make_hatch_lines, hsp] at hmk
  · simp only [make_hatch_lines, if_neg hsp, Except.ok.injEq] at hmk
    subst hmk
    rw [List.mem_flatMap] at hseg
    obtain ⟨y, _, hseg⟩ := hseg
    rw [List.mem_map] at hseg
    obtain ⟨ab, hab, habeq⟩ := hseg
    obtain ⟨a, b⟩ := ab
    simp only [segOf, rotBack, Prod.mk.injEq] at habeq
    obtain ⟨h1, h2, h3, h4⟩ := habeq
    have hmem1 : R.mem (a, y) = true :=
      hok y a b hab a (min_le_left a b) (le_max_left a b)
    have hmem2 : R.mem (b, y) = true :=
      hok y a b hab b (min_le_right a b) (le_max_right a b)
    have hminmid : min a b ≤ (a + b) / 2 := by
      rcases le_total a b with hle | hle
      · rw [min_eq_left hle]; linarith
      · rw [min_eq_right hle]; linarith
    have hmidmax : (a + b) / 2 ≤ max a b := by
      rcases le_total a b with hle | hle
      · rw [max_eq_right hle]; linarith
      · rw [max_eq_left hle]; linarith
    have hmemm : R.mem ((a + b) / 2, y) = true := hok y a b hab _ hminmid hmidmax
    refine ⟨?_, ?_, ?_⟩
    · have := hrot (a, y) hmem1
      rwa [show rotBack c s (a, y) = (x1, y1) by
        simp only [rotBack]
        rw [← h1, ← h2]] at this
    · have := hrot (b, y) hmem2
      rwa [show rotBack c s (b, y) = (x2, y2) by
        simp only [rotBack]
        rw [← h3, ← h4]] at this
    · have := hrot ((a + b) / 2, y) hmemm
      rwa [show rotBack c s ((a + b) / 2, y) = ((x1 + x2) / 2, (y1 + y2) / 2) by
        simp only [rotBack, Prod.mk.injEq]
        constructor
        · rw [← h1, ← h3]; ring
        · rw [← h2, ← h4]; ring] at this

lemma make_hatch_lines_rect_eval :
    make_hatch_lines (rectRegion 0 1 0 1) 1 1 0 =
      Except.ok [(0, 0, 1, 0), (0, 1, 1, 1)] := by
  have hsp : ¬((1 : ℚ) ≤ 0) := by norm_num
  simp only [make_hatch_lines, if_neg hsp]
  have hminy : (rectRegion (0 : ℚ) 1 0 1).miny = 0 := rfl
  have hmaxy : (rectRegion (0 : ℚ) 1 0 1).maxy = 1 := rfl
  rw [hminy, hmaxy, show (0 : ℚ) - 1 * 2 = -2 by norm_num,
    show (1 : ℚ) + 1 * 2 = 3 by norm_num,
    float_range_eq (-2) 3 1 (by norm_num) 6
      (by rw [show ⌊((3 : ℚ) + 1 / 1000000000 - -2) / 1⌋ = (5 : ℤ) from by norm_num]; rfl),
    show List.range 6 = [0, 1, 2, 3, 4, 5] from rfl]
  simp only [List.map_cons, List.map_nil, List.flatMap_cons, List.flatMap_nil, rectRegion,
    segOf, rotBack]
  norm_num

theorem hatch_segments_lie_in_region_witness :
    ((rectRegion 0 1 0 1).mem (0, 0) = true) ∧
    ((rectRegion 0 1 0 1).mem (1, 0) = true) ∧
    ((rectRegion 0 1 0 1).mem ((0 + 1) / 2, (0 + 0) / 2) = true) :=
  hatch_segments_lie_in_region (rectRegion 0 1 0 1) 1 1 0
    (fun p => (rectRegion 0 1 0 1).mem p = true)
    (rectRegion_chordsOk 0 1 0 1 (by norm_num))
    (fun p hp => by simpa [rotBack] using hp)
    [(0, 0, 1, 0), (0, 1, 1, 1)] make_hatch_lines_rect_eval
    0 0 1 0 (by simp)

/-- Claim C5.  `make_hatch_lines` follows the rotate-scan-unrotate scheme:
on the `-angle`-rotated region (the `SRegion` argument) it extends the
bounding box by a margin of exactly two spacings on each side, scans the
probe ordinates `miny - margin + k * spacing`, keeping exactly those that
are `≤ maxy + margin + 1e-9` (the inclusive stepping of `float_range`),
intersects each probe line with the rotated region, and rotates every
resulting chord back by `+angle` about the origin `(0, 0)` (`segOf`,
built from `rotBack c s` with `c, s` the cosine and sine of `+angle`). -/
theorem make_hatch_lines_rotate_scan (R : SRegion) (spacing c s : ℚ)
    (h : 0 < spacing) :
    make_hatch_lines R spacing c s =
      Except.ok ((probes R.miny R.maxy spacing).flatMap fun y =>
        (R.chordsAt y).map fun ab => segOf c s y ab) ∧
    ∀ k : ℕ, (k < probeCount R.miny R.maxy spacing ↔
      R.miny - spacing * 2 + (k : ℚ) * spacing ≤ R.maxy + spacing * 2 + 1 / 1000000000) := by
  constructor
  · have hsp : ¬spacing ≤ 0 := not_le.mpr h
    simp only [make_hatch_lines, if_neg hsp]
    rw [float_range_eq _ _ _ h (probeCount R.miny R.maxy spacing) rfl]
    rfl
  · intro k
    have key : k < probeCount R.miny R.maxy spacing ↔
        (k : ℚ) * spacing ≤ R.maxy + spacing * 2 + 1 / 1000000000 - (R.miny - spacing * 2) := by
      rw [probeCount, Int.lt_toNat, Int.lt_add_one_iff, Int.le_floor]
      push_cast
      rw [le_div_iff₀ h]
    constructor
    · intro hk
      have := key.mp hk
      linarith
    · intro hk
      exact key.mpr (by linarith)

theorem make_hatch_lines_rotate_scan_witness :
    (0 : ℚ) < 1 ∧
    (make_hatch_lines (rectRegion 0 1 0 1) 1 1 0 =
      Except.ok ((probes (rectRegion 0 1 0 1).miny (rectRegion 0 1 0 1).maxy 1).flatMap fun y =>
        ((rectRegion 0 1 0 1).chordsAt y).map fun ab => segOf 1 0 y ab) ∧
    ∀ k : ℕ, (k < probeCount (rectRegion 0 1 0 1).miny (rectRegion 0 1 0 1).maxy 1 ↔
      (rectRegion 0 1 0 1).miny - 1 * 2 + (k : ℚ) * 1 ≤
        (rectRegion 0 1 0 1).maxy + 1 * 2 + 1 / 1000000000)) :=
  ⟨by norm_num, make_hatch_lines_rotate_scan (rectRegion 0 1 0 1) 1 1 0 (by norm_num)⟩

lemma probe_in_band_iff (y0 y1 S : ℚ) (hS : 0 < S) (hy : y0 ≤ y1) (k : ℕ) :
    (y0 ≤ y0 - S * 2 + (k : ℚ) * S ∧ y0 - S * 2 + (k : ℚ) * S ≤ y1) ↔
      (2 ≤ k ∧ k ≤ 2 + (⌊(y1 - y0) / S⌋).toNat) := by
  have hm0 : 0 ≤ ⌊(y1 - y0) / S⌋ :=
    Int.le_floor.mpr (by exact_mod_cast div_nonneg (by linarith) hS.le)
  constructor
  · rintro ⟨h1, h2⟩
    constructor
    · have hmul : (2 : ℚ) * S ≤ (k : ℚ) * S := by linarith
      have h2k : (2 : ℚ) ≤ (k : ℚ) := (mul_le_mul_right hS).mp hmul
      exact_mod_cast h2k
    · have hk2 : ((k : ℤ) - 2 : ℤ) ≤ ⌊(y1 - y0) / S⌋ := by
        rw [Int.le_floor]
        push_cast
        rw [le_div_iff₀ hS]
        nlinarith
      omega
  · rintro ⟨h1, h2⟩
    have h1' : (2 : ℚ) ≤ (k : ℚ) := by exact_mod_cast h1
    have hmul : (2 : ℚ) * S ≤ (k : ℚ) * S := (mul_le_mul_right hS).mpr h1'
    constructor
    · linarith
    · have hk2 : ((k : ℤ) - 2 : ℤ) ≤ ⌊(y1 - y0) / S⌋ := by omega
      have hfl := Int.le_floor.mp hk2
      rw [le_div_iff₀ hS] at hfl
      push_cast at hfl
      nlinarith

lemma sum_range_band (a b : ℕ) : ∀ N : ℕ,
    ((List.range N).map fun k => if a ≤ k ∧ k ≤ b then (1 : ℕ) else 0).sum =
      min N (b + 1) - min N a := by
  intro N
  induction N with
  | zero => simp
  | succ n ih =>
    rw [List.range_succ, List.map_append, List.sum_append, ih]
    by_cases h1 : a ≤ n <;> by_cases h2 : n ≤ b <;>
      simp [h1, h2] <;> omega

/-- Claim C6.  For a rectangular region of height `H = y1 - y0` filled at
angle 0 (cosine 1, sine 0: the rotated region is the rectangle itself)
with spacing `S > 0`, `make_hatch_lines` produces exactly
`⌊H / S⌋ + 1` horizontal segments — the exact value of the
"`floor(H / S) + 1` within ±1" spacing-fidelity property: the probe grid
starts two spacings below the rectangle, so the ordinates that meet it
are `y0, y0 + S, …` up to `y1`. -/
theorem rect_hatch_count (x0 x1 y0 y1 S : ℚ) (hS : 0 < S) (hy : y0 ≤ y1) :
    ∀ segs, make_hatch_lines (rectRegion x0 x1 y0 y1) S 1 0 = Except.ok segs →
      (segs.length : ℤ) = ⌊(y1 - y0) / S⌋ + 1 := by
  intro segs hmk
  have hsp : ¬S ≤ 0 := not_le.mpr hS
  simp only [make_hatch_lines, if_neg hsp, Except.ok.injEq] at hmk
  subst hmk
  have hminy : (rectRegion x0 x1 y0 y1).miny = y0 := rfl
  have hmaxy : (rectRegion x0 x1 y0 y1).maxy = y1 := rfl
  rw [hminy, hmaxy,
    float_range_eq (y0 - S * 2) (y1 + S * 2) S hS
      ((⌊(y1 + S * 2 + 1 / 1000000000 - (y0 - S * 2)) / S⌋ + 1).toNat) rfl]
  set N : ℕ := (⌊(y1 + S * 2 + 1 / 1000000000 - (y0 - S * 2)) / S⌋ + 1).toNat with hN
  set m : ℕ := (⌊(y1 - y0) / S⌋).toNat with hm
  have hm0 : 0 ≤ ⌊(y1 - y0) / S⌋ :=
    Int.le_floor.mpr (by exact_mod_cast div_nonneg (by linarith) hS.le)
  have hlen : (((List.range N).map fun k : ℕ => y0 - S * 2 + (k : ℚ) * S).flatMap
      fun y => ((rectRegion x0 x1 y0 y1).chordsAt y).map fun ab => segOf 1 0 y ab).length =
      ((List.range N).map fun k : ℕ => if 2 ≤ k ∧ k ≤ 2 + m then (1 : ℕ) else 0).sum := by
    rw [List.length_flatMap, List.map_map]
    congr 1
    apply List.map_congr_left
    intro k _
    simp only [Function.comp_apply, List.length_map, rectRegion]
    by_cases hcond : y0 ≤ y0 - S * 2 + (k : ℚ) * S ∧ y0 - S * 2 + (k : ℚ) * S ≤ y1
    · rw [if_pos hcond, if_pos ((probe_in_band_iff y0 y1 S hS hy k).mp hcond)]
      rfl
    · rw [if_neg hcond, if_neg (fun hx => hcond ((probe_in_band_iff y0 y1 S hS hy k).mpr hx))]
      rfl
  rw [hlen, sum_range_band]
  have hNge : ⌊(y1 - y0) / S⌋ + 4 ≤ ⌊(y1 + S * 2 + 1 / 1000000000 - (y0 - S * 2)) / S⌋ := by
    have harg : (y1 + S * 2 + 1 / 1000000000 - (y0 - S * 2)) / S =
        (y1 - y0) / S + 4 + 1 / 1000000000 / S := by
      field_simp
      ring
    have hstep1 : ⌊(y1 - y0) / S + (4 : ℤ)⌋ ≤ ⌊(y1 - y0) / S + 4 + 1 / 1000000000 / S⌋ := by
      apply Int.floor_le_floor
      have : (0 : ℚ) < 1 / 1000000000 / S := by positivity
      push_cast
      linarith
    rw [harg]
    rw [Int.floor_add_int] at hstep1
    exact hstep1
  have hNval : 2 + m + 1 ≤ N := by omega
  have hminb : min N (2 + m + 1) = 2 + m + 1 := min_eq_right hNval
  have hmina : min N 2 = 2 := min_eq_right (by omega)
  rw [hminb, hmina]
  omega

theorem rect_hatch_count_witness :
    (0 : ℚ) < 1 ∧ (0 : ℚ) ≤ 1 ∧
    (([((0 : ℚ), (0 : ℚ), (1 : ℚ), (0 : ℚ)), (0, 1, 1, 1)].length : ℤ) =
      ⌊((1 : ℚ) - 0) / 1⌋ + 1) :=
  ⟨by norm_num, by norm_num,
   rect_hatch_count 0 1 0 1 1 (by norm_num) (by norm_num) _ make_hatch_lines_rect_eval⟩
